import Mathlib

/-!
Shallow embedding of the playback-queue core of `src/main.py` (a Telegram
music bot), together with theorems settling the frozen claims about it.

The embedded parts are `QueueManager` (the per-conversation session data:
queue, loop mode, current item, playback state) and its methods, the
admission logic of the `/play` command and of the search-result play
callback, `PlaybackManager.stop` / `pause` / `resume`, the `on_kicked` /
`on_closed_vc` event handlers, and the queue-advance routine
`process_queue`.  External I/O (the streaming transport and the
downloader) is represented by explicit outcome parameters: a
`TransportResult` for a transport call that may raise, and a function
`Song → Option String` for the download step (`none` = download failed).
`process_queue` recurses into itself on download failure; the embedding
spends one unit of fuel per call and yields `none` when the fuel is
exhausted, i.e. when the run has not terminated within that many calls.
-/

namespace Blackstar

/-- `class PlaybackState(Enum)` (src/main.py lines 94-97). -/
inductive PlaybackState where
  | PLAYING
  | PAUSED
  | STOPPED
deriving DecidableEq, Repr

/-- `class LoopMode(Enum)` (src/main.py lines 99-102). -/
inductive LoopMode where
  | OFF
  | SINGLE
  | QUEUE
deriving DecidableEq, Repr

/-- `@dataclass class Song` (src/main.py lines 107-117).  The wall-clock
`added_at` timestamp is modelled as a natural tick; `duration` is the
length in seconds. -/
structure Song where
  title : String
  url : String
  duration : Nat
  thumbnail : String
  video_id : String
  requested_by : String
  requested_by_id : Int
  file_path : Option String := none
  added_at : Nat := 0
deriving DecidableEq, Repr

/-- `@dataclass class QueueManager` (src/main.py lines 119-151): the
per-conversation session state. -/
structure QueueManager where
  queue : List Song := []
  loop_mode : LoopMode := LoopMode.OFF
  current : Option Song := none
  state : PlaybackState := PlaybackState.STOPPED
deriving DecidableEq, Repr

namespace QueueManager

/-- `QueueManager.add` (lines 126-128): append unconditionally and return
`len(self.queue)`, the new 1-based position. -/
def add (qm : QueueManager) (song : Song) : QueueManager × Nat :=
  ({ qm with queue := qm.queue ++ [song] }, qm.queue.length + 1)

/-- `QueueManager.remove` (lines 130-133): pop the item at `index` when
`0 <= index < len(self.queue)`, otherwise return `None` and change
nothing. -/
def remove (qm : QueueManager) (index : Int) : Option Song × QueueManager :=
  if 0 ≤ index ∧ index < (qm.queue.length : Int) then
    (qm.queue.get? index.toNat, { qm with queue := qm.queue.eraseIdx index.toNat })
  else
    (none, qm)

/-- `QueueManager.get_next` (lines 135-143): under SINGLE with a current
item, return it without touching anything; under QUEUE with a current
item, append it to the tail first; then pop the head of the queue if any,
else return `None`.  The returned pair is (popped item, session after the
call) — the Python method mutates `self.queue` in place and never touches
`self.current`, `self.loop_mode` or `self.state`. -/
def get_next (qm : QueueManager) : Option Song × QueueManager :=
  match qm.loop_mode, qm.current with
  | LoopMode.SINGLE, some c => (some c, qm)
  | LoopMode.QUEUE, some c =>
    match qm.queue ++ [c] with
    | [] => (none, { qm with queue := [] })
    | s :: rest => (some s, { qm with queue := rest })
  | _, _ =>
    match qm.queue with
    | [] => (none, qm)
    | s :: rest => (some s, { qm with queue := rest })

/-- `QueueManager.clear` (lines 145-148): empty the queue, drop the
current item and stop.  `loop_mode` is not touched. -/
def clear (qm : QueueManager) : QueueManager :=
  { qm with queue := [], current := none, state := PlaybackState.STOPPED }

end QueueManager

/-- Outcome of one call into the external streaming transport, whose
Python counterpart either returns or raises: `ok` = the call returned,
`err` = it raised. -/
inductive TransportResult where
  | ok
  | err
deriving DecidableEq, Repr

namespace PlaybackManager

/-- `PlaybackManager.stop` (lines 356-364): `try: leave_group_call;
active_calls.pop; queues[chat_id].clear() except: log`.  The `clear` is
inside the `try` after the transport leave, so it runs only when the
leave does not raise; a raising leave is swallowed (logged) and the
session is left untouched. -/
def stop (leave : TransportResult) (qm : QueueManager) : QueueManager :=
  match leave with
  | TransportResult.ok => qm.clear
  | TransportResult.err => qm

/-- What a pause request reports back.  The code (lines 336-344, 655-664)
produces `Paused` on transport success and re-raises transport failures
(`TransportError`); `NotPlaying` names the outcome the spec describes for
a session that is not playing, which the code never produces. -/
inductive PauseResult where
  | Paused
  | NotPlaying
  | TransportError
deriving DecidableEq, Repr

/-- `PlaybackManager.pause` (lines 336-344): call `pause_stream` with no
state check; on success set `state = PAUSED`, on a raise leave the
session unchanged and propagate the error. -/
def pause (t : TransportResult) (qm : QueueManager) : QueueManager × PauseResult :=
  match t with
  | TransportResult.ok => ({ qm with state := PlaybackState.PAUSED }, PauseResult.Paused)
  | TransportResult.err => (qm, PauseResult.TransportError)

/-- `PlaybackManager.resume` (lines 346-354): call `resume_stream` with no
state check; on success set `state = PLAYING`, on a raise leave the
session unchanged. -/
def resume (t : TransportResult) (qm : QueueManager) : QueueManager :=
  match t with
  | TransportResult.ok => { qm with state := PlaybackState.PLAYING }
  | TransportResult.err => qm

end PlaybackManager

/-- `on_kicked` (lines 445-450): clear the session. -/
def on_kicked (qm : QueueManager) : QueueManager :=
  qm.clear

/-- `on_closed_vc` (lines 452-457): clear the session. -/
def on_closed_vc (qm : QueueManager) : QueueManager :=
  qm.clear

/-- `process_queue` (lines 369-399) on the session state.  `dl song` is
the combined result of the cache lookup / download step for `song`
(`none` = no playable file, the `if not song.file_path` branch); `play`
is the transport outcome of the `start_playback` call at line 397;
`leave` is the transport outcome of the `PlaybackManager.stop` issued by
the queue-exhausted branch.  The Python function recurses into itself on
download failure (`await process_queue(chat_id)` at line 393); the
embedding spends one unit of fuel per call and returns `none` when the
fuel runs out before the run terminates.  A terminating run returns
`some` of the final session state: the exhausted branch sets
`state = STOPPED` and then runs `stop`; after a successful download, a
raising `start_playback` is caught by the outer `except` (lines 422-428),
which only logs and notifies, so the call returns with `current` and
`state` untouched (the popped song is left as `get_next` left it); on
stream-start success the downloaded path is stored on the song, the song
becomes current and `state = PLAYING`.  `start_playback` runs at most
once per call chain (a raise ends the run, never recurses), so one
outcome parameter covers it. -/
def process_queue (dl : Song → Option String) (play leave : TransportResult) :
    Nat → QueueManager → Option QueueManager
  | 0, _ => none
  | fuel + 1, qm =>
    match qm.get_next with
    | (none, qm') =>
      some (PlaybackManager.stop leave { qm' with state := PlaybackState.STOPPED })
    | (some song, qm') =>
      match dl song with
      | none => process_queue dl play leave fuel qm'
      | some path =>
        match play with
        | TransportResult.err => some qm'
        | TransportResult.ok =>
          some { qm' with
            current := some { song with file_path := some path },
            state := PlaybackState.PLAYING }

/-- Outcome of the queue-admission part of the `/play` command. -/
inductive PlayOutcome where
  | QueueFull
  | NoValidSongs
  | Added (count : Nat)
deriving DecidableEq, Repr

/-- The queue-admission logic of `play_command` (lines 607-633): one
capacity check (`len(qm.queue) >= MAX_QUEUE_SIZE`) before the batch, then
the first 20 search results are appended one by one via `qm.add`,
silently skipping (`continue`) any whose duration exceeds
`MAX_DURATION`; if every result was skipped nothing was added and the
command reports no valid songs. -/
def play_command_enqueue (maxQueueSize maxDuration : Nat) (qm : QueueManager)
    (results : List Song) : QueueManager × PlayOutcome :=
  if maxQueueSize ≤ qm.queue.length then
    (qm, PlayOutcome.QueueFull)
  else
    let admitted := (results.take 20).filter fun s => s.duration ≤ maxDuration
    if admitted.isEmpty then
      (qm, PlayOutcome.NoValidSongs)
    else
      ({ qm with queue := qm.queue ++ admitted }, PlayOutcome.Added admitted.length)

/-- The search-result play path of `callback_handler` (lines 959-984):
the resolved song is admitted with `qm.add` directly — no capacity check
and no duration check.  Returns the session and the reported 1-based
position. -/
def callback_play_enqueue (qm : QueueManager) (song : Song) : QueueManager × Nat :=
  qm.add song

/-- One queue advance as claim C5 defines it, matching the success path
of `process_queue` on the queue data: `song = qm.get_next()` followed by
`qm.current = song`. -/
def advance (qm : QueueManager) : QueueManager :=
  let p := qm.get_next
  { p.2 with current := p.1 }

/-- The session's items in play order: the current item first, then the
pending queue. -/
def sessionItems (qm : QueueManager) : List Song :=
  match qm.current with
  | some c => c :: qm.queue
  | none => qm.queue

/-- The claimed session invariant: no current item exactly when the
session is stopped. -/
def stoppedInv (qm : QueueManager) : Prop :=
  qm.current = none ↔ qm.state = PlaybackState.STOPPED

/-- A download step in which every download fails. -/
def dlFail : Song → Option String :=
  fun _ => none

/-- Concrete items used by witnesses and counterexamples. -/
def songA : Song :=
  { title := "alpha", url := "https://y/a", duration := 180, thumbnail := "",
    video_id := "vidA", requested_by := "userA", requested_by_id := 1 }

def songB : Song :=
  { title := "beta", url := "https://y/b", duration := 200, thumbnail := "",
    video_id := "vidB", requested_by := "userB", requested_by_id := 2 }

def songC : Song :=
  { title := "gamma", url := "https://y/c", duration := 240, thumbnail := "",
    video_id := "vidC", requested_by := "userC", requested_by_id := 3 }

/-- An item longer than the default `MAX_DURATION` of 3600. -/
def songLong : Song :=
  { title := "long", url := "https://y/l", duration := 4000, thumbnail := "",
    video_id := "vidL", requested_by := "userL", requested_by_id := 4 }

-- ---------------------------------------------------------------------
-- Theorems
-- ---------------------------------------------------------------------

/-- C4: `get_next` implements the loop policy exactly.  Under SINGLE with
a current item it returns that item and leaves the whole session (queue
included) unchanged, so every further call returns the same item until
the mode changes; under QUEUE it appends the current item (if any) to the
tail and then pops the head — with no current item there is nothing to
append and the head is popped directly; under OFF it pops the head
directly; and it returns `none` exactly when the queue is empty after the
policy is applied (i.e. when the queue is empty and no current item is
pinned or re-appended). -/
theorem get_next_loop_policy (qm : QueueManager) (c : Song) :
    (qm.loop_mode = LoopMode.SINGLE → qm.current = some c →
      qm.get_next = (some c, qm)) ∧
    (qm.loop_mode = LoopMode.QUEUE → qm.current = some c →
      (qm.queue = [] → qm.get_next = (some c, qm)) ∧
      ∀ s rest, qm.queue = s :: rest →
        qm.get_next = (some s, { qm with queue := rest ++ [c] })) ∧
    (qm.loop_mode = LoopMode.QUEUE → qm.current = none →
      (qm.queue = [] → qm.get_next = (none, qm)) ∧
      ∀ s rest, qm.queue = s :: rest →
        qm.get_next = (some s, { qm with queue := rest })) ∧
    (qm.loop_mode = LoopMode.OFF →
      (qm.queue = [] → qm.get_next = (none, qm)) ∧
      ∀ s rest, qm.queue = s :: rest →
        qm.get_next = (some s, { qm with queue := rest })) ∧
    ((qm.get_next).1 = none ↔
      qm.queue = [] ∧ (qm.current = none ∨ qm.loop_mode = LoopMode.OFF)) := by
  obtain ⟨q, lm, cur, st⟩ := qm
  cases lm <;> cases cur <;> cases q <;>
    simp [QueueManager.get_next]

/-- C4 witness: on a concrete QUEUE-mode session with current item
`songA` and queue `[songB]`, `get_next` re-appends `songA` and pops
`songB`. -/
theorem get_next_loop_policy_witness :
    QueueManager.get_next
        { queue := [songB], loop_mode := LoopMode.QUEUE, current := some songA,
          state := PlaybackState.PLAYING } =
      (some songB,
        { queue := [songA], loop_mode := LoopMode.QUEUE, current := some songA,
          state := PlaybackState.PLAYING }) :=
  ((get_next_loop_policy
      { queue := [songB], loop_mode := LoopMode.QUEUE, current := some songA,
        state := PlaybackState.PLAYING } songA).2.1 rfl rfl).2 songB [] rfl

/-- C9: `clear` resets the queue, the current item and the playback state
but leaves `loop_mode` exactly as it was, so the loop mode chosen before
a stop, kick, channel-closed or inactivity reset is still in effect
afterwards. -/
theorem clear_preserves_loop_mode (qm : QueueManager) :
    (qm.clear).loop_mode = qm.loop_mode ∧
    qm.clear = { queue := [], loop_mode := qm.loop_mode, current := none,
                 state := PlaybackState.STOPPED } :=
  ⟨rfl, rfl⟩

/-- C10: when `loop_mode` is SINGLE but `current` is `None`, `get_next`
does not pin anything: it falls through to the OFF behaviour, popping and
returning the head of the queue, and returns `none` only when the queue
is empty too. -/
theorem get_next_single_no_current (qm : QueueManager)
    (hm : qm.loop_mode = LoopMode.SINGLE) (hc : qm.current = none) :
    (qm.queue = [] → qm.get_next = (none, qm)) ∧
    ∀ s rest, qm.queue = s :: rest →
      qm.get_next = (some s, { qm with queue := rest }) := by
  obtain ⟨q, lm, cur, st⟩ := qm
  subst hm
  subst hc
  cases q <;> simp [QueueManager.get_next]

/-- C10 witness: a concrete SINGLE-mode session with no current item and
queue `[songA]` pops and returns `songA`. -/
theorem get_next_single_no_current_witness :
    QueueManager.get_next
        { queue := [songA], loop_mode := LoopMode.SINGLE, current := none,
          state := PlaybackState.STOPPED } =
      (some songA,
        { queue := [], loop_mode := LoopMode.SINGLE, current := none,
          state := PlaybackState.STOPPED }) :=
  (get_next_single_no_current
      { queue := [songA], loop_mode := LoopMode.SINGLE, current := none,
        state := PlaybackState.STOPPED } rfl rfl).2 songA [] rfl

/-- Two sessions agreeing on every field are equal. -/
theorem queueManager_eq (a b : QueueManager) (h1 : a.queue = b.queue)
    (h2 : a.loop_mode = b.loop_mode) (h3 : a.current = b.current)
    (h4 : a.state = b.state) : a = b := by
  cases a
  cases b
  simp_all

/-- Effect of one `advance` on a QUEUE-mode session with a current item:
the play order rotates by one and the loop mode, the presence of a
current item and the playback state are untouched. -/
theorem advance_queue_step (qm : QueueManager) (c : Song)
    (hm : qm.loop_mode = LoopMode.QUEUE) (hc : qm.current = some c) :
    sessionItems (advance qm) = (sessionItems qm).rotate 1 ∧
    (advance qm).loop_mode = LoopMode.QUEUE ∧
    (advance qm).current.isSome ∧
    (advance qm).state = qm.state := by
  obtain ⟨q, lm, cur, st⟩ := qm
  subst hm
  subst hc
  cases q with
  | nil => simp [advance, QueueManager.get_next, sessionItems]
  | cons s rest =>
    simp [advance, QueueManager.get_next, sessionItems, List.rotate_cons_succ]

/-- Iterated form of `advance_queue_step`: after `k` advances the play
order is the original one rotated by `k`. -/
theorem advance_queue_iterate (qm : QueueManager) (c : Song)
    (hm : qm.loop_mode = LoopMode.QUEUE) (hc : qm.current = some c) (k : Nat) :
    (advance^[k] qm).loop_mode = LoopMode.QUEUE ∧
    (advance^[k] qm).current.isSome ∧
    (advance^[k] qm).state = qm.state ∧
    sessionItems (advance^[k] qm) = (sessionItems qm).rotate k := by
  induction k with
  | zero => simp [hm, hc]
  | succ n ih =>
    obtain ⟨h1, h2, h3, h4⟩ := ih
    obtain ⟨a, ha⟩ := Option.isSome_iff_exists.mp h2
    have step := advance_queue_step (advance^[n] qm) a h1 ha
    rw [Function.iterate_succ_apply']
    refine ⟨step.2.1, step.2.2.1, ?_, ?_⟩
    · rw [step.2.2.2, h3]
    · rw [step.1, h4, List.rotate_rotate]

/-- C5: under loop mode QUEUE with a current item and a pending queue of
`N - 1` items (`N` items in total), exactly `N` consecutive advances
(each one `get_next` followed by assigning the returned item to
`current`) with no new enqueues return the session to its original state
— same current item, same queue order — and after any number of advances
the session still holds a permutation of the original items: looping
never drops an item. -/
theorem advance_queue_rotation (qm : QueueManager) (c : Song)
    (hm : qm.loop_mode = LoopMode.QUEUE) (hc : qm.current = some c) :
    advance^[qm.queue.length + 1] qm = qm ∧
    ∀ k, (sessionItems (advance^[k] qm)).Perm (sessionItems qm) := by
  constructor
  · obtain ⟨h1, h2, h3, h4⟩ := advance_queue_iterate qm c hm hc (qm.queue.length + 1)
    have hlen : (sessionItems qm).length = qm.queue.length + 1 := by
      simp [sessionItems, hc]
    have hrot : (sessionItems qm).rotate (qm.queue.length + 1) = sessionItems qm := by
      rw [← hlen, List.rotate_length]
    rw [hrot] at h4
    generalize advance^[qm.queue.length + 1] qm = s at h1 h2 h3 h4 ⊢
    obtain ⟨a, ha⟩ := Option.isSome_iff_exists.mp h2
    have h4' : a :: s.queue = c :: qm.queue := by
      simpa [sessionItems, ha, hc] using h4
    simp only [List.cons.injEq] at h4'
    exact queueManager_eq _ _ h4'.2 (h1.trans hm.symm) (ha.trans (h4'.1 ▸ hc.symm))
      h3
  · intro k
    obtain ⟨_, _, _, h4⟩ := advance_queue_iterate qm c hm hc k
    rw [h4]
    exact List.rotate_perm _ _

/-- A concrete QUEUE-mode session for the C5 witness: current `songA`,
queue `[songB, songC]`, three items in total. -/
def qmRot : QueueManager :=
  { queue := [songB, songC], loop_mode := LoopMode.QUEUE, current := some songA,
    state := PlaybackState.PLAYING }

/-- C5 witness: on `qmRot` (three items in total) exactly three advances
restore the original session, and after two advances the items are still
a permutation of the original ones. -/
theorem advance_queue_rotation_witness :
    advance^[3] qmRot = qmRot ∧
    (sessionItems (advance^[2] qmRot)).Perm (sessionItems qmRot) :=
  ⟨(advance_queue_rotation qmRot songA rfl rfl).1,
   (advance_queue_rotation qmRot songA rfl rfl).2 2⟩

/-- A session holding one queued song (defaults otherwise: loop OFF, no
current item, STOPPED). -/
def qmOneQueued : QueueManager :=
  { queue := [songA] }

/-- A session holding two queued songs. -/
def qmTwoQueued : QueueManager :=
  { queue := [songA, songB] }

/-- A session with every field at its default. -/
def qmEmpty : QueueManager :=
  {}

/-- C1 counterexample: with `MAX_QUEUE_SIZE = 2` and one song already
queued, a single `/play` batch of two short results passes the one
up-front capacity check and is appended whole, leaving three items in the
queue — `len(queue) ≤ MAX_QUEUE_SIZE` is broken; and the search-result
play callback, which has no capacity check at all, grows a queue that is
already at capacity to three items as well. -/
theorem play_batch_overflows_bound :
    (play_command_enqueue 2 3600 qmOneQueued [songB, songC]).1.queue.length = 3 ∧
    2 < 3 ∧
    (callback_play_enqueue qmTwoQueued songC).1.queue.length = 3 :=
  ⟨rfl, by decide, rfl⟩

/-- C1 amended: the `/play` command rejects the whole batch (leaving the
session unchanged) only when the queue already holds at least
`MAX_QUEUE_SIZE` items; an admitted batch is appended without re-checking
capacity, bounded only by the 20-result cap, so the queue can exceed
`MAX_QUEUE_SIZE` by up to 19; the search-result play callback appends its
item unconditionally, growing the queue by exactly one even at capacity.
Removal is never used to restore the bound. -/
theorem queue_bound_amended (maxQueueSize maxDuration : Nat) (qm : QueueManager)
    (results : List Song) (song : Song) :
    (maxQueueSize ≤ qm.queue.length →
      play_command_enqueue maxQueueSize maxDuration qm results =
        (qm, PlayOutcome.QueueFull)) ∧
    (play_command_enqueue maxQueueSize maxDuration qm results).1.queue.length ≤
      qm.queue.length + 20 ∧
    (callback_play_enqueue qm song).1.queue.length = qm.queue.length + 1 := by
  refine ⟨fun h => by simp [play_command_enqueue, h], ?_, ?_⟩
  · unfold play_command_enqueue
    split
    · simp
    · simp only
      split
      · simp
      · have h1 : ((results.take 20).filter fun s => s.duration ≤ maxDuration).length ≤
            (results.take 20).length := List.length_filter_le _ _
        have h2 : (results.take 20).length ≤ 20 := by
          simp [List.length_take]
        simp only [List.length_append]
        omega
  · simp [callback_play_enqueue, QueueManager.add]

/-- A QUEUE-mode session with current `songA` and one pending item whose
downloads all fail, for the C2 counterexample. -/
def qmAllFail : QueueManager :=
  { queue := [songB], loop_mode := LoopMode.QUEUE, current := some songA,
    state := PlaybackState.PLAYING }

/-- C2 counterexample: on `qmAllFail` the remaining queue length is 1,
yet with every download failing `process_queue` is still recursing after
6 calls — `get_next` re-appends the unchanged current item on every pass,
so the claimed bound (number of retries at most the remaining queue
length, ending STOPPED in one pass) does not hold. -/
theorem process_queue_all_fail_unbounded :
    process_queue dlFail TransportResult.ok TransportResult.ok 6 qmAllFail = none ∧
    qmAllFail.queue.length = 1 :=
  ⟨rfl, rfl⟩

/-- With loop mode OFF every failing pass pops one item and never puts
one back, so a fully-failing queue of length `n` drains in exactly
`n + 1` calls, ending in the queue-exhausted branch. -/
theorem process_queue_off_drains (play leave : TransportResult) (l : List Song) :
    ∀ qm : QueueManager, qm.loop_mode = LoopMode.OFF → qm.queue = l →
      process_queue dlFail play leave (l.length + 1) qm =
        some (PlaybackManager.stop leave
          { qm with queue := [], state := PlaybackState.STOPPED }) := by
  induction l with
  | nil =>
    intro qm hm hq
    obtain ⟨q, lm, cur, st⟩ := qm
    subst hm
    subst hq
    cases cur <;> rfl
  | cons s rest ih =>
    intro qm hm hq
    obtain ⟨q, lm, cur, st⟩ := qm
    subst hm
    subst hq
    have step : process_queue dlFail play leave ((s :: rest).length + 1)
        ⟨s :: rest, LoopMode.OFF, cur, st⟩ =
        process_queue dlFail play leave (rest.length + 1)
          ⟨rest, LoopMode.OFF, cur, st⟩ := by
      cases cur <;> rfl
    rw [step, ih ⟨rest, LoopMode.OFF, cur, st⟩ rfl rfl]

/-- With loop mode SINGLE or QUEUE and a current item, `get_next` always
hands back an item (the pinned or re-appended current one included) and
never changes `current`, so under all-failing downloads `process_queue`
recurses forever: no amount of fuel makes the run terminate. -/
theorem process_queue_loop_diverges (play leave : TransportResult) :
    ∀ (fuel : Nat) (qm : QueueManager),
      qm.loop_mode = LoopMode.SINGLE ∨ qm.loop_mode = LoopMode.QUEUE →
      qm.current.isSome →
      process_queue dlFail play leave fuel qm = none := by
  intro fuel
  induction fuel with
  | zero =>
    intro qm _ _
    rfl
  | succ n ih =>
    intro qm hm hc
    obtain ⟨q, lm, cur, st⟩ := qm
    obtain ⟨a, ha⟩ := Option.isSome_iff_exists.mp hc
    simp only at ha
    subst ha
    rcases hm with hm | hm <;> simp only at hm <;> subst hm
    · exact ih ⟨q, LoopMode.SINGLE, some a, st⟩ (Or.inl rfl) rfl
    · cases q with
      | nil => exact ih ⟨[], LoopMode.QUEUE, some a, st⟩ (Or.inr rfl) rfl
      | cons s rest =>
        exact ih ⟨rest ++ [a], LoopMode.QUEUE, some a, st⟩ (Or.inr rfl) rfl

/-- C2 amended: `process_queue` recurses into itself on each download
failure with no depth bound.  When the loop mode is OFF the recursion
happens to be bounded — a fully-failing queue of length `n` drains in
`n + 1` calls and ends with `state = STOPPED` — but when the loop mode is
SINGLE or QUEUE and a current item is set, a fully-failing session
recurses unboundedly and never reaches the STOPPED outcome. -/
theorem process_queue_failure_amended (play leave : TransportResult)
    (qm : QueueManager) :
    (qm.loop_mode = LoopMode.OFF →
      process_queue dlFail play leave (qm.queue.length + 1) qm =
        some (PlaybackManager.stop leave
          { qm with queue := [], state := PlaybackState.STOPPED }) ∧
      (PlaybackManager.stop leave
          { qm with queue := [], state := PlaybackState.STOPPED }).state =
        PlaybackState.STOPPED) ∧
    (qm.loop_mode = LoopMode.SINGLE ∨ qm.loop_mode = LoopMode.QUEUE →
      qm.current.isSome →
      ∀ fuel, process_queue dlFail play leave fuel qm = none) := by
  refine ⟨fun hm => ⟨process_queue_off_drains play leave qm.queue qm hm rfl, ?_⟩,
    fun hm hc fuel => process_queue_loop_diverges play leave fuel qm hm hc⟩
  cases leave <;> rfl

/-- C3 counterexample: the search-result play callback admits a song of
4000 seconds even though `MAX_DURATION` is 3600 — no duration check and
no `DurationExceeded` rejection on that admission path. -/
theorem callback_admits_overlong :
    (callback_play_enqueue qmEmpty songLong).1.queue = [songLong] ∧
    3600 < songLong.duration :=
  ⟨rfl, by decide⟩

/-- C3 amended: on the `/play` path every item of the queue after
admission either was already queued or has duration at most
`MAX_DURATION` — over-long results are silently skipped rather than
rejected with a distinct `DurationExceeded` outcome — but the
search-result play callback appends its item unconditionally, admitting
any duration. -/
theorem duration_admission_amended (maxQueueSize maxDuration : Nat)
    (qm : QueueManager) (results : List Song) (song : Song) :
    (∀ s, s ∈ (play_command_enqueue maxQueueSize maxDuration qm results).1.queue →
      s ∈ qm.queue ∨ s.duration ≤ maxDuration) ∧
    (callback_play_enqueue qm song).1.queue = qm.queue ++ [song] := by
  constructor
  · intro s hs
    simp only [play_command_enqueue] at hs
    split at hs
    · exact Or.inl hs
    · split at hs
      · exact Or.inl hs
      · simp only [List.mem_append] at hs
        rcases hs with hs | hs
        · exact Or.inl hs
        · exact Or.inr (by simpa using List.of_mem_filter hs)
  · rfl

/-- One unfolding of `process_queue` when `get_next` hands back an item:
the run continues with the download result of that item, and after a
successful download with the stream-start outcome. -/
theorem process_queue_succ_some (dl : Song → Option String)
    (play leave : TransportResult) (n : Nat) (qm qmi : QueueManager) (song : Song)
    (hg : qm.get_next = (some song, qmi)) :
    process_queue dl play leave (n + 1) qm =
      match dl song with
      | none => process_queue dl play leave n qmi
      | some path =>
        match play with
        | TransportResult.err => some qmi
        | TransportResult.ok =>
          some { qmi with
            current := some { song with file_path := some path },
            state := PlaybackState.PLAYING } := by
  simp only [process_queue, hg]

/-- One unfolding of `process_queue` when `get_next` hands back nothing:
the queue-exhausted branch stops. -/
theorem process_queue_succ_none (dl : Song → Option String)
    (play leave : TransportResult) (n : Nat) (qm qmi : QueueManager)
    (hg : qm.get_next = (none, qmi)) :
    process_queue dl play leave (n + 1) qm =
      some (PlaybackManager.stop leave
        { qmi with state := PlaybackState.STOPPED }) := by
  simp only [process_queue, hg]

/-- `get_next` only touches the queue: the current item, the loop mode
and the playback state of the returned session are the caller's. -/
theorem get_next_only_queue (qm : QueueManager) :
    (qm.get_next).2.current = qm.current ∧
    (qm.get_next).2.loop_mode = qm.loop_mode ∧
    (qm.get_next).2.state = qm.state := by
  obtain ⟨q, lm, cur, st⟩ := qm
  cases lm <;> cases cur <;> cases q <;> simp [QueueManager.get_next]

/-- Any terminating `process_queue` run whose transport leave and stream
start both succeed ends in a state satisfying the stopped/current
biconditional: the exhausted branch clears the session and the success
branch sets a current item with state PLAYING. -/
theorem process_queue_ok_inv (dl : Song → Option String) :
    ∀ (fuel : Nat) (qm qm' : QueueManager),
      process_queue dl TransportResult.ok TransportResult.ok fuel qm = some qm' →
      stoppedInv qm' := by
  intro fuel
  induction fuel with
  | zero =>
    intro qm qm' h
    exact absurd h (by simp [process_queue])
  | succ n ih =>
    intro qm qm' h
    rcases hg : qm.get_next with ⟨r, qmi⟩
    cases r with
    | none =>
      rw [process_queue_succ_none dl TransportResult.ok TransportResult.ok n qm qmi hg]
        at h
      injection h with h
      subst h
      simp [PlaybackManager.stop, QueueManager.clear, stoppedInv]
    | some song =>
      rw [process_queue_succ_some dl TransportResult.ok TransportResult.ok n qm qmi
        song hg] at h
      cases hdl : dl song with
      | none =>
        rw [hdl] at h
        exact ih qmi qm' h
      | some path =>
        rw [hdl] at h
        injection h with h
        subst h
        simp [stoppedInv]

/-- A terminating `process_queue` run whose transport leave succeeds
preserves the stopped/current biconditional whatever the stream-start
outcome: a raising `start_playback` returns the session with `current`
and `state` as they were (only the queue was advanced), the other
terminating branches establish the biconditional outright. -/
theorem process_queue_ok_preserves_inv (dl : Song → Option String)
    (play : TransportResult) :
    ∀ (fuel : Nat) (qm qm' : QueueManager), stoppedInv qm →
      process_queue dl play TransportResult.ok fuel qm = some qm' →
      stoppedInv qm' := by
  intro fuel
  induction fuel with
  | zero =>
    intro qm qm' _ h
    exact absurd h (by simp [process_queue])
  | succ n ih =>
    intro qm qm' hinv h
    have hkeep := get_next_only_queue qm
    rcases hg : qm.get_next with ⟨r, qmi⟩
    rw [hg] at hkeep
    cases r with
    | none =>
      rw [process_queue_succ_none dl play TransportResult.ok n qm qmi hg] at h
      injection h with h
      subst h
      simp [PlaybackManager.stop, QueueManager.clear, stoppedInv]
    | some song =>
      rw [process_queue_succ_some dl play TransportResult.ok n qm qmi song hg] at h
      have hinv' : stoppedInv qmi := by
        unfold stoppedInv
        rw [hkeep.1, hkeep.2.2]
        exact hinv
      cases hdl : dl song with
      | none =>
        rw [hdl] at h
        exact ih qmi qm' hinv' h
      | some path =>
        rw [hdl] at h
        cases play with
        | err =>
          injection h with h
          subst h
          exact hinv'
        | ok =>
          injection h with h
          subst h
          simp [stoppedInv]

/-- A session playing its last song: empty queue, loop OFF, current
`songA`, state PLAYING — for the C6 counterexample. -/
def qmLastSong : QueueManager :=
  { queue := [], loop_mode := LoopMode.OFF, current := some songA,
    state := PlaybackState.PLAYING }

/-- C6 counterexample: when the last song of `qmLastSong` ends, the
queue-exhausted branch of `process_queue` sets `state = STOPPED` and
calls `stop`; the transport leave raises, so `clear` is skipped and the
session is left with `state = STOPPED` while `current` is still set —
the biconditional `current = none ↔ state = STOPPED` is violated. -/
theorem stopped_inv_broken :
    process_queue dlFail TransportResult.ok TransportResult.err 1 qmLastSong =
      some { queue := [], loop_mode := LoopMode.OFF, current := some songA,
             state := PlaybackState.STOPPED } ∧
    ¬ stoppedInv { queue := [], loop_mode := LoopMode.OFF, current := some songA,
                   state := PlaybackState.STOPPED } :=
  ⟨rfl, fun h => Option.noConfusion (h.mpr rfl)⟩

/-- C6 amended: the biconditional `current = none ↔ state = STOPPED` is
established by `clear` (hence by the kicked and channel-closed handlers),
by a `stop` whose transport leave succeeds, and by every terminating
`process_queue` run whose transport leave and stream start both succeed;
it is preserved by any terminating `process_queue` run whose transport
leave succeeds whatever the stream start does (a raising
`start_playback` returns with `current` and `state` untouched), by a
failed `stop` (which changes nothing) and by `pause`/`resume` when the
transport call fails or when a current item is set.  It is not preserved
by the queue-exhausted advance when the transport leave fails (C6's
counterexample), nor by a transport-successful `pause`/`resume` on a
session with no current item; and a run whose stream start raises only
keeps whatever held before, so a session already violating the
biconditional can stay violating through a terminating advance. -/
theorem stopped_inv_amended (qm : QueueManager) :
    stoppedInv qm.clear ∧
    stoppedInv (on_kicked qm) ∧
    stoppedInv (on_closed_vc qm) ∧
    stoppedInv (PlaybackManager.stop TransportResult.ok qm) ∧
    (stoppedInv qm → stoppedInv (PlaybackManager.stop TransportResult.err qm)) ∧
    (stoppedInv qm → stoppedInv (PlaybackManager.pause TransportResult.err qm).1) ∧
    (qm.current.isSome → stoppedInv (PlaybackManager.pause TransportResult.ok qm).1) ∧
    (stoppedInv qm → stoppedInv (PlaybackManager.resume TransportResult.err qm)) ∧
    (qm.current.isSome → stoppedInv (PlaybackManager.resume TransportResult.ok qm)) ∧
    (∀ (dl : Song → Option String) (fuel : Nat) (qm' : QueueManager),
      process_queue dl TransportResult.ok TransportResult.ok fuel qm = some qm' →
      stoppedInv qm') ∧
    (∀ (dl : Song → Option String) (play : TransportResult) (fuel : Nat)
      (qm' : QueueManager), stoppedInv qm →
      process_queue dl play TransportResult.ok fuel qm = some qm' →
      stoppedInv qm') := by
  refine ⟨?_, ?_, ?_, ?_, fun h => h, fun h => h, fun hc => ?_, fun h => h,
    fun hc => ?_, fun dl fuel qm' h => process_queue_ok_inv dl fuel qm qm' h,
    fun dl play fuel qm' hinv h =>
      process_queue_ok_preserves_inv dl play fuel qm qm' hinv h⟩
  · simp [stoppedInv, QueueManager.clear]
  · simp [stoppedInv, on_kicked, QueueManager.clear]
  · simp [stoppedInv, on_closed_vc, QueueManager.clear]
  · simp [stoppedInv, PlaybackManager.stop, QueueManager.clear]
  · obtain ⟨a, ha⟩ := Option.isSome_iff_exists.mp hc
    simp [stoppedInv, PlaybackManager.pause, ha]
  · obtain ⟨a, ha⟩ := Option.isSome_iff_exists.mp hc
    simp [stoppedInv, PlaybackManager.resume, ha]

/-- A playing session with a non-empty queue, for the C7 counterexample. -/
def qmPlayingFull : QueueManager :=
  { queue := [songB], loop_mode := LoopMode.OFF, current := some songA,
    state := PlaybackState.PLAYING }

/-- C7 counterexample: `stop` on a playing session whose transport leave
raises changes nothing — the state stays PLAYING, the queue stays
non-empty and the current item stays set, so a transport failure during
stop does prevent the session from being cleared. -/
theorem stop_leave_failure_keeps_state :
    PlaybackManager.stop TransportResult.err qmPlayingFull = qmPlayingFull ∧
    qmPlayingFull.state = PlaybackState.PLAYING ∧
    qmPlayingFull.queue ≠ [] ∧
    qmPlayingFull.current ≠ none :=
  ⟨rfl, rfl, by decide, by decide⟩

/-- C7 amended: `stop` swallows transport failures (it never raises),
and when the transport leave succeeds it clears the session — state
STOPPED, empty queue, no current item; but when the leave raises the
`clear` inside the `try` block is skipped and the whole session is left
exactly as it was, so `stop` does not guarantee a cleared session. -/
theorem stop_amended (qm : QueueManager) :
    PlaybackManager.stop TransportResult.ok qm = qm.clear ∧
    (PlaybackManager.stop TransportResult.ok qm).state = PlaybackState.STOPPED ∧
    (PlaybackManager.stop TransportResult.ok qm).queue = [] ∧
    (PlaybackManager.stop TransportResult.ok qm).current = none ∧
    PlaybackManager.stop TransportResult.err qm = qm :=
  ⟨rfl, rfl, rfl, rfl, rfl⟩

/-- A paused session with a current item, for the C8 counterexample. -/
def qmPaused : QueueManager :=
  { queue := [], loop_mode := LoopMode.OFF, current := some songA,
    state := PlaybackState.PAUSED }

/-- C8 counterexample: `pause` inspects no playback state.  On a PAUSED
session (not PLAYING) a successful transport pause reports `Paused`, not
`NotPlaying`; and on a STOPPED session a successful transport pause
changes the state to PAUSED instead of leaving it unchanged. -/
theorem pause_no_state_check :
    qmPaused.state ≠ PlaybackState.PLAYING ∧
    (PlaybackManager.pause TransportResult.ok qmPaused).2 =
      PlaybackManager.PauseResult.Paused ∧
    (PlaybackManager.pause TransportResult.ok qmPaused).2 ≠
      PlaybackManager.PauseResult.NotPlaying ∧
    qmEmpty.state = PlaybackState.STOPPED ∧
    (PlaybackManager.pause TransportResult.ok qmEmpty).1.state =
      PlaybackState.PAUSED :=
  ⟨by decide, rfl, by decide, rfl, rfl⟩

/-- C8 amended: `pause` performs no playback-state check.  Whatever the
current state, it issues the transport pause; on transport success it
sets the state to PAUSED and reports `Paused`, on transport failure it
leaves the session unchanged and propagates the error — the `NotPlaying`
outcome is never produced. -/
theorem pause_amended (qm : QueueManager) (t : TransportResult) :
    PlaybackManager.pause TransportResult.ok qm =
      ({ qm with state := PlaybackState.PAUSED }, PlaybackManager.PauseResult.Paused) ∧
    PlaybackManager.pause TransportResult.err qm =
      (qm, PlaybackManager.PauseResult.TransportError) ∧
    (PlaybackManager.pause t qm).2 ≠ PlaybackManager.PauseResult.NotPlaying := by
  refine ⟨rfl, rfl, ?_⟩
  cases t <;> simp [PlaybackManager.pause]

end Blackstar
